import Mathlib

/-!
Shallow embedding of the fraud-ex backend core: the TTL cache
(src/backend/app/core/cache.py), the analytics aggregations
(src/backend/app/api/routes/analytics.py), and the cache effects of the
mutation routes (src/backend/app/api/routes/cases.py), together with
theorems checking the specification's claims about them.

Conventions used throughout: Python numbers (ints and floats) are modelled
as exact rationals (ℚ); the ambient clock `time.time()` becomes an explicit
`now : ℚ` argument; a Python dict is an association list whose keys are
unique by construction, with assignment updating in place and new keys
appended at the end (Python dicts preserve insertion order); a method that
mutates `self` returns the new state.
-/

/-- Model of a Python value as stored in the cache. `PVal.none` is Python
`None`; strings and numbers cover the values the claims need. At the cache
interface a miss is reported as `None`, i.e. `PVal.none`. -/
inductive PVal where
  | none
  | str (s : String)
  | num (q : ℚ)
  deriving DecidableEq

/-- CacheEntry from cache.py: a value plus its absolute expiration time. -/
structure CacheEntry where
  value : PVal
  expires_at : ℚ
  deriving DecidableEq

/-- The dict `SimpleCache._cache` of cache.py, as an association list. -/
abbrev Cache := List (String × CacheEntry)

/-- Dict read `self._cache.get(key)`. -/
def cacheLookup (c : Cache) (k : String) : Option CacheEntry :=
  (c.find? (fun kv => kv.1 == k)).map Prod.snd

/-- Dict deletion `del self._cache[key]` (also `self._cache.pop(key, None)`). -/
def eraseKey (c : Cache) (k : String) : Cache :=
  c.filter (fun kv => kv.1 != k)

/-- Python `key.startswith(pre)`, on the underlying character lists. -/
def pyStartsWith (key pre : String) : Bool :=
  pre.data.isPrefixOf key.data

/-- SimpleCache.get (cache.py lines 24-32): return the stored value if the
entry exists and has not expired; the code deletes the entry and reports a
miss only when `time.time() > entry.expires_at` (strict comparison), so at
`now = expires_at` the value is still returned. The result pairs the
returned value (`PVal.none` on a miss) with the post-call store. -/
def SimpleCache.get (c : Cache) (key : String) (now : ℚ) : PVal × Cache :=
  match cacheLookup c key with
  | Option.none => (PVal.none, c)
  | Option.some e =>
      if e.expires_at < now then (PVal.none, eraseKey c key) else (e.value, c)

/-- Dict assignment `self._cache[key] = entry`: update in place when the key
is already present, otherwise append the new binding. -/
def dictInsert (c : Cache) (key : String) (e : CacheEntry) : Cache :=
  if c.any (fun kv => kv.1 == key) then
    c.map (fun kv => if kv.1 == key then (key, e) else kv)
  else c ++ [(key, e)]

/-- SimpleCache.set (cache.py lines 34-39): store the value with
`expires_at = time.time() + ttl_seconds`. -/
def SimpleCache.set (c : Cache) (key : String) (value : PVal) (ttl : ℚ) (now : ℚ) : Cache :=
  dictInsert c key { value := value, expires_at := now + ttl }

/-- SimpleCache.invalidate (cache.py lines 41-43): `self._cache.pop(key, None)`. -/
def SimpleCache.invalidate (c : Cache) (key : String) : Cache :=
  eraseKey c key

/-- SimpleCache.invalidate_prefix (cache.py lines 45-49): first collect the
keys starting with the prefix, then delete each collected key. -/
def SimpleCache.invalidatePrefix (c : Cache) (pre : String) : Cache :=
  let keysToRemove := (c.map Prod.fst).filter (fun k => pyStartsWith k pre)
  keysToRemove.foldl (fun acc k => eraseKey acc k) c

/-- CACHE_TTL from analytics.py line 22. -/
def CACHE_TTL : ℚ := 30

/-- Cache effect of upload_case_document (cases.py lines 39-55): after the
external service call `create_case_from_upload` succeeds, the handler calls
`analytics_cache.invalidate("cases:" + user.id)` and only then returns.
The service itself never touches the analytics cache. -/
def uploadCaseDocument (c : Cache) (userId : String) : Cache :=
  SimpleCache.invalidate c ("cases:" ++ userId)

/-- Cache effect of analyze_case (cases.py lines 75-95): after the external
service call `queue_analysis` succeeds, the handler calls
`analytics_cache.invalidate("cases:" + user.id)` and only then returns. -/
def analyzeCase (c : Cache) (userId : String) : Cache :=
  SimpleCache.invalidate c ("cases:" ++ userId)

/-- The coordinator _get_cases_cached (analytics.py lines 25-44): look up
key `"cases:" + user_id`; the code returns the cached value when
`cached is not None`, otherwise it fetches from the external case source
(whose normalized result is the `fetched` argument here), stores it with
TTL = CACHE_TTL and returns it. -/
def getCasesCached (c : Cache) (userId : String) (now : ℚ) (fetched : PVal) : PVal × Cache :=
  let key := "cases:" ++ userId
  let r := SimpleCache.get c key now
  if r.1 ≠ PVal.none then r
  else (fetched, SimpleCache.set r.2 key fetched CACHE_TTL now)

/-! Basic lemmas about the dict model. -/

theorem cacheLookup_cons (kv : String × CacheEntry) (t : Cache) (k : String) :
    cacheLookup (kv :: t) k = if kv.1 = k then Option.some kv.2 else cacheLookup t k := by
  by_cases h : kv.1 = k <;> simp [cacheLookup, List.find?_cons, h]

theorem eraseKey_cons (kv : String × CacheEntry) (t : Cache) (k : String) :
    eraseKey (kv :: t) k = if kv.1 = k then eraseKey t k else kv :: eraseKey t k := by
  by_cases h : kv.1 = k <;> simp [eraseKey, List.filter_cons, h]

theorem cacheLookup_eraseKey_self (c : Cache) (k : String) :
    cacheLookup (eraseKey c k) k = Option.none := by
  induction c with
  | nil => rfl
  | cons kv t ih =>
    rw [eraseKey_cons]
    by_cases h : kv.1 = k
    · simpa [h] using ih
    · simpa [cacheLookup_cons, h] using ih

theorem cacheLookup_eraseKey_ne {k k2 : String} (h : k ≠ k2) (c : Cache) :
    cacheLookup (eraseKey c k2) k = cacheLookup c k := by
  induction c with
  | nil => rfl
  | cons kv t ih =>
    rw [eraseKey_cons]
    by_cases hk : kv.1 = k2
    · rw [if_pos hk, ih, cacheLookup_cons, if_neg (by rw [hk]; exact fun e => h e.symm)]
    · rw [if_neg hk, cacheLookup_cons, cacheLookup_cons, ih]

theorem cacheLookup_eq_none_of_not_mem_keys {c : Cache} {k : String}
    (h : k ∉ c.map Prod.fst) : cacheLookup c k = Option.none := by
  induction c with
  | nil => rfl
  | cons kv t ih =>
    simp only [List.map_cons, List.mem_cons] at h
    push_neg at h
    rw [cacheLookup_cons, if_neg (fun e => h.1 e.symm), ih h.2]

theorem cacheLookup_append_single {c : Cache} {k : String} (e : CacheEntry)
    (h : ∀ kv ∈ c, kv.1 ≠ k) : cacheLookup (c ++ [(k, e)]) k = Option.some e := by
  induction c with
  | nil => simp [cacheLookup_cons]
  | cons kv t ih =>
    rw [List.cons_append, cacheLookup_cons, if_neg (h kv (List.mem_cons_self kv t))]
    exact ih (fun kv2 hm => h kv2 (List.mem_cons_of_mem kv hm))

theorem cacheLookup_map_update {c : Cache} {k : String} (e : CacheEntry)
    (h : c.any (fun kv => kv.1 == k) = true) :
    cacheLookup (c.map (fun kv => if kv.1 == k then (k, e) else kv)) k = Option.some e := by
  induction c with
  | nil => simp at h
  | cons kv t ih =>
    rw [List.map_cons]
    by_cases hk : kv.1 = k
    · simp [hk, cacheLookup_cons]
    · rw [if_neg (by simpa using hk), cacheLookup_cons, if_neg hk]
      apply ih
      simp only [List.any_cons, Bool.or_eq_true, beq_iff_eq] at h
      rcases h with h1 | h1
      · exact absurd h1 hk
      · exact h1

theorem cacheLookup_dictInsert_self (c : Cache) (k : String) (e : CacheEntry) :
    cacheLookup (dictInsert c k e) k = Option.some e := by
  unfold dictInsert
  by_cases h : c.any (fun kv => kv.1 == k) = true
  · rw [if_pos h]; exact cacheLookup_map_update e h
  · rw [if_neg h]
    refine cacheLookup_append_single e ?_
    rw [Bool.not_eq_true, List.any_eq_false] at h
    intro kv hm
    simpa using h kv hm

theorem cacheLookup_set_self (c : Cache) (k : String) (v : PVal) (ttl now : ℚ) :
    cacheLookup (SimpleCache.set c k v ttl now) k
      = Option.some { value := v, expires_at := now + ttl } :=
  cacheLookup_dictInsert_self c k _

theorem cacheLookup_foldl_eraseKey (ks : List String) (c : Cache) (k : String) :
    cacheLookup (ks.foldl (fun acc k2 => eraseKey acc k2) c) k
      = if k ∈ ks then Option.none else cacheLookup c k := by
  induction ks generalizing c with
  | nil => simp
  | cons a t ih =>
    rw [List.foldl_cons, ih]
    by_cases hk : k ∈ t
    · simp [hk]
    · by_cases ha : k = a
      · subst ha; simp [hk, cacheLookup_eraseKey_self]
      · simp [hk, ha, cacheLookup_eraseKey_ne ha]

theorem get_eq_of_lookup_some {c : Cache} {k : String} {e : CacheEntry} (now : ℚ)
    (h : cacheLookup c k = Option.some e) :
    SimpleCache.get c k now
      = if e.expires_at < now then (PVal.none, eraseKey c k) else (e.value, c) := by
  unfold SimpleCache.get; rw [h]

theorem get_eq_of_lookup_none {c : Cache} {k : String} (now : ℚ)
    (h : cacheLookup c k = Option.none) :
    SimpleCache.get c k now = (PVal.none, c) := by
  unfold SimpleCache.get; rw [h]

theorem get_set_none_fst (c : Cache) (k : String) (ttl now t : ℚ) :
    (SimpleCache.get (SimpleCache.set c k PVal.none ttl now) k t).1 = PVal.none := by
  rw [get_eq_of_lookup_some t (cacheLookup_set_self c k PVal.none ttl now)]
  split <;> rfl

/-- C1 counterexample: the claim says that once a time greater than OR EQUAL
to `expires_at` has elapsed, `get` returns absent and removes the entry. The
code (cache.py line 29) deletes only when `time.time() > entry.expires_at`,
so at `now = expires_at` the value is still returned and the entry is kept:
here the entry expires at 5, the clock reads exactly 5 (so 5 ≥ 5 has
elapsed), yet `get` returns the stored string and the store still holds
the entry. -/
theorem claim_c1_counterexample :
    (5:ℚ) ≥ 5
    ∧ (SimpleCache.get [("k", { value := PVal.str "v", expires_at := 5 })] "k" 5).1
        = PVal.str "v"
    ∧ cacheLookup (SimpleCache.get [("k", { value := PVal.str "v", expires_at := 5 })] "k" 5).2 "k"
        = Option.some { value := PVal.str "v", expires_at := 5 } := by
  have hl : cacheLookup [("k", { value := PVal.str "v", expires_at := (5:ℚ) })] "k"
      = Option.some { value := PVal.str "v", expires_at := (5:ℚ) } := by
    simp [cacheLookup_cons]
  refine ⟨le_refl _, ?_, ?_⟩ <;>
    rw [get_eq_of_lookup_some 5 hl, if_neg (by norm_num)]
  exact hl

/-- C1 (amended): for every cache entry, once a time STRICTLY GREATER than
its `expires_at` has elapsed, `get(key)` returns absent and the entry is
removed from the store (at a time exactly equal to `expires_at` the value is
still returned, see the counterexample). -/
theorem claim_c1_expiry (c : Cache) (k : String) (now : ℚ) (e : CacheEntry)
    (hfound : cacheLookup c k = Option.some e) (hexp : e.expires_at < now) :
    (SimpleCache.get c k now).1 = PVal.none
    ∧ cacheLookup (SimpleCache.get c k now).2 k = Option.none := by
  rw [get_eq_of_lookup_some now hfound, if_pos hexp]
  exact ⟨rfl, cacheLookup_eraseKey_self c k⟩

/-- Witness for claim_c1_expiry: a concrete entry expiring at 5, read at
time 6, is reported absent and removed. -/
theorem claim_c1_expiry_witness :
    cacheLookup [("k", { value := PVal.str "v", expires_at := (5:ℚ) })] "k"
        = Option.some { value := PVal.str "v", expires_at := (5:ℚ) }
    ∧ (5:ℚ) < 6
    ∧ ((SimpleCache.get [("k", { value := PVal.str "v", expires_at := (5:ℚ) })] "k" 6).1
          = PVal.none
       ∧ cacheLookup
           (SimpleCache.get [("k", { value := PVal.str "v", expires_at := (5:ℚ) })] "k" 6).2 "k"
          = Option.none) :=
  ⟨by simp [cacheLookup_cons], by norm_num,
   claim_c1_expiry [("k", { value := PVal.str "v", expires_at := (5:ℚ) })] "k" 6
     { value := PVal.str "v", expires_at := (5:ℚ) }
     (by simp [cacheLookup_cons]) (by norm_num)⟩

/-- C3: both mutation endpoints (upload_case_document and analyze_case in
cases.py) call `analytics_cache.invalidate("cases:" + user.id)` right after
their service call succeeds and before returning, so after a successful call
the cache holds no entry for key `"cases:" + userId`. -/
theorem claim_c3_mutations_invalidate (c : Cache) (userId : String) :
    cacheLookup (uploadCaseDocument c userId) ("cases:" ++ userId) = Option.none
    ∧ cacheLookup (analyzeCase c userId) ("cases:" ++ userId) = Option.none :=
  ⟨cacheLookup_eraseKey_self c _, cacheLookup_eraseKey_self c _⟩

/-- C9: invalidatePrefix removes exactly the entries whose key starts with
the prefix. For any store and prefix, a key that starts with the prefix is
absent afterwards, and the binding of a key that does not start with the
prefix is unchanged (same value and same expiration, since the whole entry
is compared). -/
theorem claim_c9_invalidatePrefix_exact (c : Cache) (pre k k2 : String)
    (h1 : pyStartsWith k pre = true) (h2 : pyStartsWith k2 pre = false) :
    cacheLookup (SimpleCache.invalidatePrefix c pre) k = Option.none
    ∧ cacheLookup (SimpleCache.invalidatePrefix c pre) k2 = cacheLookup c k2 := by
  unfold SimpleCache.invalidatePrefix
  constructor
  · rw [cacheLookup_foldl_eraseKey]
    by_cases hm : k ∈ (c.map Prod.fst).filter (fun x => pyStartsWith x pre)
    · rw [if_pos hm]
    · rw [if_neg hm]
      refine cacheLookup_eq_none_of_not_mem_keys (fun hk => ?_)
      exact hm (List.mem_filter.mpr ⟨hk, h1⟩)
  · rw [cacheLookup_foldl_eraseKey, if_neg]
    intro hm
    have hx := (List.mem_filter.mp hm).2
    rw [h2] at hx
    exact Bool.false_ne_true hx

/-- Witness for claim_c9_invalidatePrefix_exact on a concrete two-entry
store: the "cases:" key disappears, the "stats:" key keeps its binding. -/
theorem claim_c9_witness :
    cacheLookup
        (SimpleCache.invalidatePrefix
          [("cases:u1", { value := PVal.str "a", expires_at := 100 }),
           ("stats:u1", { value := PVal.str "b", expires_at := 100 })] "cases:")
        "cases:u1" = Option.none
    ∧ cacheLookup
        (SimpleCache.invalidatePrefix
          [("cases:u1", { value := PVal.str "a", expires_at := 100 }),
           ("stats:u1", { value := PVal.str "b", expires_at := 100 })] "cases:")
        "stats:u1"
      = cacheLookup
          [("cases:u1", { value := PVal.str "a", expires_at := 100 }),
           ("stats:u1", { value := PVal.str "b", expires_at := 100 })] "stats:u1" :=
  claim_c9_invalidatePrefix_exact
    [("cases:u1", { value := PVal.str "a", expires_at := 100 }),
     ("stats:u1", { value := PVal.str "b", expires_at := 100 })]
    "cases:" "cases:u1" "stats:u1" (by decide) (by decide)

/-- C10: a stored None is indistinguishable from an absent key at the cache
interface. With any positive TTL, `set(key, None, ttl)` followed by
`get(key)` returns None, exactly as when the key is absent; consequently the
cache-aside coordinator `_get_cases_cached`, which treats None as a miss
(`if cached is not None`), refetches and re-stores on every call when the
cached value is None. -/
theorem claim_c10_none_indistinguishable (c : Cache) (k userId : String)
    (ttl now t : ℚ) (fetched : PVal) (httl : 0 < ttl) :
    (SimpleCache.get (SimpleCache.set c k PVal.none ttl now) k t).1 = PVal.none
    ∧ (SimpleCache.get (SimpleCache.invalidate c k) k t).1 = PVal.none
    ∧ (getCasesCached (SimpleCache.set c ("cases:" ++ userId) PVal.none ttl now)
         userId t fetched).1 = fetched
    ∧ cacheLookup
        (getCasesCached (SimpleCache.set c ("cases:" ++ userId) PVal.none ttl now)
          userId t fetched).2 ("cases:" ++ userId)
      = Option.some { value := fetched, expires_at := t + CACHE_TTL } := by
  refine ⟨get_set_none_fst c k ttl now t, ?_, ?_, ?_⟩
  · unfold SimpleCache.invalidate
    rw [get_eq_of_lookup_none t (cacheLookup_eraseKey_self c k)]
  all_goals
    simp only [getCasesCached,
      get_eq_of_lookup_some t (cacheLookup_set_self c ("cases:" ++ userId) PVal.none ttl now)]
  all_goals
    by_cases hc : (now + ttl) < t
  · simp only [if_pos hc, ne_eq, not_true_eq_false, if_false]
  · simp only [if_neg hc, ne_eq, not_true_eq_false, if_false]
  · simp only [if_pos hc, ne_eq, not_true_eq_false, if_false,
      cacheLookup_set_self]
  · simp only [if_neg hc, ne_eq, not_true_eq_false, if_false,
      cacheLookup_set_self]

/-- Witness for claim_c10_none_indistinguishable at a concrete input. -/
theorem claim_c10_witness :
    (0:ℚ) < 1
    ∧ ((SimpleCache.get (SimpleCache.set [] "k" PVal.none 1 0) "k" 0).1 = PVal.none
       ∧ (SimpleCache.get (SimpleCache.invalidate [] "k") "k" 0).1 = PVal.none
       ∧ (getCasesCached (SimpleCache.set [] ("cases:" ++ "u1") PVal.none 1 0)
            "u1" 0 (PVal.str "cases")).1 = PVal.str "cases"
       ∧ cacheLookup
           (getCasesCached (SimpleCache.set [] ("cases:" ++ "u1") PVal.none 1 0)
             "u1" 0 (PVal.str "cases")).2 ("cases:" ++ "u1")
         = Option.some { value := PVal.str "cases", expires_at := 0 + CACHE_TTL }) :=
  ⟨by norm_num,
   claim_c10_none_indistinguishable [] "k" "u1" 1 0 0 (PVal.str "cases") (by norm_num)⟩

/-! Case records and the analytics aggregations of analytics.py. -/

/-- A value of the detector_breakdown mapping in a case's signals. The code
skips entries that are not dicts (`isinstance(detector_data, dict)`), and
reads the score with `detector_data.get("score", 0)`, so a dict without a
score counts as score 0. -/
inductive DetectorData where
  | notDict
  | dict (score : Option ℚ)
  deriving DecidableEq

/-- A case record as normalized by _get_cases_cached (analytics.py lines
33-42). `created_at` is omitted: none of the aggregations the claims cover
reads it. `signals = none` models a falsy `signals` value (absent, None or
empty dict, all skipped by `not case.get("signals")`); `signals = some bd`
models a truthy signals dict whose detector_breakdown is `bd` (the code
defaults a missing detector_breakdown to the empty dict, which is `some []`
here). -/
structure CaseRecord where
  case_id : String
  status : String
  risk_score : Option ℚ
  signals : Option (List (String × DetectorData))
  deriving DecidableEq

/-- The four counters of the `distribution` dict in get_risk_distribution. -/
structure RiskDist where
  low : ℕ
  medium : ℕ
  high : ℕ
  critical : ℕ
  deriving DecidableEq

/-- One iteration of the loop of get_risk_distribution (analytics.py lines
88-98): a record contributes only when its status is "analyzed" and its
risk_score is present; the score is appended to `scores` and the if/elif
chain tests `>= 75`, `>= 50`, `>= 25`, with a final else for low. -/
def stepRisk (acc : RiskDist × List ℚ) (c : CaseRecord) : RiskDist × List ℚ :=
  if c.status = "analyzed" then
    match c.risk_score with
    | Option.some s =>
        let d := acc.1
        let d2 :=
          if s ≥ 75 then { d with critical := d.critical + 1 }
          else if s ≥ 50 then { d with high := d.high + 1 }
          else if s ≥ 25 then { d with medium := d.medium + 1 }
          else { d with low := d.low + 1 }
        (d2, acc.2 ++ [s])
    | Option.none => acc
  else acc

/-- Python round() to the nearest integer with ties to even (banker's
rounding), on exact rationals. Python rounds floats; over the exact inputs
used here the two agree. -/
def pyRoundHalfEven (q : ℚ) : ℤ :=
  let f : ℤ := ⌊q⌋
  let r : ℚ := q - f
  if r < 1/2 then f
  else if (1:ℚ)/2 < r then f + 1
  else if f % 2 = 0 then f else f + 1

/-- Python round(x, 1). -/
def round1 (q : ℚ) : ℚ := (pyRoundHalfEven (q * 10) : ℚ) / 10

/-- The response dict of get_risk_distribution. -/
structure RiskOut where
  distribution : RiskDist
  total_analyzed : ℕ
  average_score : ℚ
  min_score : ℚ
  max_score : ℚ
  deriving DecidableEq

/-- get_risk_distribution (analytics.py lines 85-106) over the fetched
record list: fold the classification loop, then build the response;
average/min/max fall back to 0 when no scores were collected. -/
def riskDistribution (records : List CaseRecord) : RiskOut :=
  let p := records.foldl stepRisk ({ low := 0, medium := 0, high := 0, critical := 0 }, [])
  { distribution := p.1
    total_analyzed := p.2.length
    average_score :=
      match p.2 with
      | [] => 0
      | _ :: _ => round1 (p.2.sum / p.2.length)
    min_score :=
      match p.2 with
      | [] => 0
      | h :: t => t.foldl min h
    max_score :=
      match p.2 with
      | [] => 0
      | h :: t => t.foldl max h }

/-- Bucket names of the risk distribution. -/
inductive RiskBucket where
  | low
  | medium
  | high
  | critical
  deriving DecidableEq

/-- Spec-side bucket assignment, written from the claim's words: low gets
[0,25), medium [25,50), high [50,75), critical [75,100]; a score on a
boundary goes to the higher bucket. Intended for scores in [0,100]. -/
def specRiskBucket (s : ℚ) : RiskBucket :=
  if 0 ≤ s ∧ s < 25 then RiskBucket.low
  else if 25 ≤ s ∧ s < 50 then RiskBucket.medium
  else if 50 ≤ s ∧ s < 75 then RiskBucket.high
  else RiskBucket.critical

/-- Increment exactly the named bucket, leaving the other three counters
untouched. -/
def bumpBucket (d : RiskDist) (b : RiskBucket) : RiskDist :=
  match b with
  | RiskBucket.low => { d with low := d.low + 1 }
  | RiskBucket.medium => { d with medium := d.medium + 1 }
  | RiskBucket.high => { d with high := d.high + 1 }
  | RiskBucket.critical => { d with critical := d.critical + 1 }

theorem stepRisk_analyzed (d : RiskDist) (scores : List ℚ) (c : CaseRecord) (s : ℚ)
    (hst : c.status = "analyzed") (hsc : c.risk_score = Option.some s) :
    stepRisk (d, scores) c
      = (bumpBucket d
          (if (75:ℚ) ≤ s then RiskBucket.critical
           else if 50 ≤ s then RiskBucket.high
           else if 25 ≤ s then RiskBucket.medium
           else RiskBucket.low),
         scores ++ [s]) := by
  simp only [stepRisk, hst, hsc, ge_iff_le, if_true]
  by_cases h75 : (75:ℚ) ≤ s
  · simp [h75, bumpBucket]
  · by_cases h50 : (50:ℚ) ≤ s
    · simp [h75, h50, bumpBucket]
    · by_cases h25 : (25:ℚ) ≤ s
      · simp [h75, h50, h25, bumpBucket]
      · simp [h75, h50, h25, bumpBucket]

theorem codeBucket_eq_specBucket (s : ℚ) (h0 : 0 ≤ s) (h100 : s ≤ 100) :
    (if (75:ℚ) ≤ s then RiskBucket.critical
     else if 50 ≤ s then RiskBucket.high
     else if 25 ≤ s then RiskBucket.medium
     else RiskBucket.low) = specRiskBucket s := by
  unfold specRiskBucket
  by_cases h75 : (75:ℚ) ≤ s
  · rw [if_pos h75, if_neg (fun h => by linarith [h.2]), if_neg (fun h => by linarith [h.2]),
      if_neg (fun h => by linarith [h.2])]
  · by_cases h50 : (50:ℚ) ≤ s
    · rw [if_neg h75, if_pos h50, if_neg (fun h => by linarith [h.2]),
        if_neg (fun h => by linarith [h.2]), if_pos ⟨h50, by linarith⟩]
    · by_cases h25 : (25:ℚ) ≤ s
      · rw [if_neg h75, if_neg h50, if_pos h25, if_neg (fun h => by linarith [h.2]),
          if_pos ⟨h25, by linarith⟩]
      · rw [if_neg h75, if_neg h50, if_neg h25, if_pos ⟨h0, by linarith⟩]

/-- C4: in the risk-distribution loop, a record with status "analyzed" and a
risk score in [0,100] increments exactly one bucket — the one given by the
boundaries low [0,25), medium [25,50), high [50,75), critical [75,100], a
boundary score going to the higher bucket (bumpBucket touches exactly one
counter) — while a record that is not analyzed or has no risk score leaves
the distribution unchanged. -/
theorem claim_c4_bucket_boundaries (d : RiskDist) (scores : List ℚ)
    (c c2 : CaseRecord) (s : ℚ)
    (hst : c.status = "analyzed") (hsc : c.risk_score = Option.some s)
    (h0 : 0 ≤ s) (h100 : s ≤ 100)
    (hout : c2.status ≠ "analyzed" ∨ c2.risk_score = Option.none) :
    (stepRisk (d, scores) c).1 = bumpBucket d (specRiskBucket s)
    ∧ (stepRisk (d, scores) c2).1 = d := by
  constructor
  · rw [stepRisk_analyzed d scores c s hst hsc, codeBucket_eq_specBucket s h0 h100]
  · rcases hout with h | h
    · simp [stepRisk, h]
    · simp [stepRisk, h]

/-- Witness for claim_c4_bucket_boundaries: an analyzed record scoring 30
bumps exactly the medium bucket; a pending record changes nothing. -/
theorem claim_c4_witness :
    (stepRisk ({ low := 0, medium := 0, high := 0, critical := 0 }, [])
        { case_id := "c1", status := "analyzed", risk_score := Option.some 30,
          signals := Option.none }).1
      = bumpBucket { low := 0, medium := 0, high := 0, critical := 0 } (specRiskBucket 30)
    ∧ (stepRisk ({ low := 0, medium := 0, high := 0, critical := 0 }, [])
        { case_id := "c2", status := "pending", risk_score := Option.some 90,
          signals := Option.none }).1
      = { low := 0, medium := 0, high := 0, critical := 0 } :=
  claim_c4_bucket_boundaries { low := 0, medium := 0, high := 0, critical := 0 } []
    { case_id := "c1", status := "analyzed", risk_score := Option.some 30,
      signals := Option.none }
    { case_id := "c2", status := "pending", risk_score := Option.some 90,
      signals := Option.none }
    30 rfl rfl (by norm_num) (by norm_num) (Or.inl (by decide))

/-- C5: on the three-record example (analyzed 10, analyzed 80, pending 90)
the risk distribution is low 1, medium 0, high 0, critical 1, with 2 records
analyzed, average 45.0, min 10 and max 80; the pending record is excluded. -/
theorem claim_c5_concrete_distribution :
    riskDistribution
      [ { case_id := "c1", status := "analyzed", risk_score := Option.some 10,
          signals := Option.none },
        { case_id := "c2", status := "analyzed", risk_score := Option.some 80,
          signals := Option.none },
        { case_id := "c3", status := "pending", risk_score := Option.some 90,
          signals := Option.none } ]
      = { distribution := { low := 1, medium := 0, high := 0, critical := 1 },
          total_analyzed := 2, average_score := 45, min_score := 10, max_score := 80 } := by
  have hp : ("pending" : String) ≠ "analyzed" := by decide
  norm_num [riskDistribution, stepRisk, round1, pyRoundHalfEven, min_def, max_def, hp]

/-! The signal breakdown of get_signal_breakdown (analytics.py lines 113-175). -/

/-- The per-detector running stats value of the `signal_stats` dict
(analytics.py lines 139-145): name, count of triggering cases, running
total and max of their scores, and the sampled case ids. -/
structure SigRec where
  name : String
  triggered_count : ℕ
  total_score : ℚ
  max_score : ℚ
  case_ids : List String
  deriving DecidableEq

/-- One iteration of the inner detector loop: the enclosing case's id, the
detector name, and the detector data. -/
structure Ev where
  caseId : String
  name : String
  dd : DetectorData
  deriving DecidableEq

/-- The fresh stats value created when a detector is first seen
(analytics.py lines 139-145). -/
def initSig (nm : String) : SigRec :=
  { name := nm, triggered_count := 0, total_score := 0, max_score := 0, case_ids := [] }

/-- The update applied when a detector triggers (analytics.py lines
147-153): increment the count, accumulate the total, update the max, and
append the case id only while fewer than 10 ids are sampled. -/
def triggerSig (s : SigRec) (caseId : String) (score : ℚ) : SigRec :=
  { s with
    triggered_count := s.triggered_count + 1
    total_score := s.total_score + score
    max_score := max s.max_score score
    case_ids := if s.case_ids.length < 10 then s.case_ids ++ [caseId] else s.case_ids }

/-- The body of the inner detector loop (analytics.py lines 132-153): skip
non-dict detector data; read the score with default 0; create the stats
entry when the name is new (Python dict insertion order: appended at the
end); when score > 0 apply triggerSig to the entry with this name. The
`signal_stats` dict is the list of its values, keyed by their name field. -/
def stepEv (stats : List SigRec) (e : Ev) : List SigRec :=
  match e.dd with
  | DetectorData.notDict => stats
  | DetectorData.dict sc =>
      let score := sc.getD 0
      let stats1 :=
        if stats.any (fun s => s.name == e.name) then stats
        else stats ++ [initSig e.name]
      if 0 < score then
        stats1.map (fun s => if s.name == e.name then triggerSig s e.caseId score else s)
      else stats1

/-- The detector iterations one case contributes (analytics.py lines
126-132): none when the case is not analyzed or its signals are falsy,
otherwise one per detector_breakdown item, in mapping order. -/
def caseEvents (c : CaseRecord) : List Ev :=
  if c.status = "analyzed" then
    match c.signals with
    | Option.some bd => bd.map (fun en => { caseId := c.case_id, name := en.1, dd := en.2 })
    | Option.none => []
  else []

/-- The outer loop body of get_signal_breakdown for one case. -/
def processCase (stats : List SigRec) (c : CaseRecord) : List SigRec :=
  (caseEvents c).foldl stepEv stats

/-- The fully built `signal_stats` dict (values in insertion order) after
the loop of get_signal_breakdown (analytics.py lines 124-153). -/
def signalStats (records : List CaseRecord) : List SigRec :=
  records.foldl processCase []

/-- All detector iterations of a record list, in processing order. -/
def events (records : List CaseRecord) : List Ev :=
  (records.map caseEvents).flatten

/-- An entry of the final `signals` list (analytics.py lines 156-171):
the stats entry with avg_score added and the running total dropped. -/
structure SigOut where
  name : String
  triggered_count : ℕ
  max_score : ℚ
  avg_score : ℚ
  case_ids : List String
  deriving DecidableEq

/-- The average pass (analytics.py lines 156-163): avg_score is
round(total/count, 1) when the count is positive, else 0. -/
def finalizeSig (s : SigRec) : SigOut :=
  { name := s.name, triggered_count := s.triggered_count, max_score := s.max_score,
    avg_score :=
      if 0 < s.triggered_count then round1 (s.total_score / (s.triggered_count : ℚ)) else 0,
    case_ids := s.case_ids }

/-- get_signal_breakdown (analytics.py lines 113-175): build the stats,
add the averages, and return the values sorted by triggered_count
descending. Python's sorted is stable, and with reverse=True it keeps the
original (dict insertion = first seen) order among equal keys; that is
exactly insertion sort with the relation "count of the left ≥ count of the
right". -/
def signalBreakdown (records : List CaseRecord) : List SigOut :=
  List.insertionSort (fun a b => b.triggered_count ≤ a.triggered_count)
    ((signalStats records).map finalizeSig)

/-- C6: with two analyzed cases whose detector d1 scores 5 and one analyzed
case where d1 scores 0, the breakdown reports d1 with triggeredCount 2,
avgScore 5.0, maxScore 5, and sampleCaseIds holding exactly the ids of the
two triggering cases, in order. -/
theorem claim_c6_trigger_threshold :
    signalBreakdown
      [ { case_id := "c1", status := "analyzed", risk_score := Option.none,
          signals := Option.some [("d1", DetectorData.dict (Option.some 5))] },
        { case_id := "c2", status := "analyzed", risk_score := Option.none,
          signals := Option.some [("d1", DetectorData.dict (Option.some 5))] },
        { case_id := "c3", status := "analyzed", risk_score := Option.none,
          signals := Option.some [("d1", DetectorData.dict (Option.some 0))] } ]
      = [ { name := "d1", triggered_count := 2, max_score := 5, avg_score := 5,
            case_ids := ["c1", "c2"] } ] := by
  norm_num [signalBreakdown, signalStats, processCase, caseEvents, stepEv, initSig,
    triggerSig, finalizeSig, round1, pyRoundHalfEven, List.insertionSort]

/-! Machinery for the sampling-cap and ordering claims about
get_signal_breakdown. -/

/-- The effective score of a detector iteration: non-dict data is skipped
by the code (and scores nothing); dict data scores `get("score", 0)`. -/
def evScore (e : Ev) : ℚ :=
  match e.dd with
  | DetectorData.notDict => 0
  | DetectorData.dict sc => sc.getD 0

/-- Whether a detector iteration triggers detector nm: the names match and
the effective score is strictly positive. -/
def evTriggersFor (e : Ev) (nm : String) : Bool :=
  e.name == nm && decide (0 < evScore e)

/-- The case ids of the iterations triggering detector nm, in encounter
order. -/
def evTriggers (evs : List Ev) (nm : String) : List String :=
  (evs.filter (fun e => evTriggersFor e nm)).map (fun e => e.caseId)

theorem evTriggers_append (evs evs2 : List Ev) (nm : String) :
    evTriggers (evs ++ evs2) nm = evTriggers evs nm ++ evTriggers evs2 nm := by
  simp [evTriggers, List.filter_append]

theorem evTriggers_single_pos {e : Ev} {nm : String} (h : evTriggersFor e nm = true) :
    evTriggers [e] nm = [e.caseId] := by
  simp [evTriggers, List.filter_cons, h]

theorem evTriggers_single_neg {e : Ev} {nm : String} (h : evTriggersFor e nm = false) :
    evTriggers [e] nm = [] := by
  simp [evTriggers, List.filter_cons, h]

/-- Invariant tying the signal_stats dict to the processed detector
iterations: entry names are unique; every entry's samples are the first 10
triggering case ids of its detector and its count is the total number of
triggering iterations; a detector without an entry has no triggering
iteration yet. -/
def StatsOk (evs : List Ev) (stats : List SigRec) : Prop :=
  (stats.map (fun s => s.name)).Nodup ∧
  ∀ nm : String,
    (match stats.find? (fun s => s.name == nm) with
     | Option.some s =>
         s.case_ids = (evTriggers evs nm).take 10
         ∧ s.triggered_count = (evTriggers evs nm).length
     | Option.none => evTriggers evs nm = [])

theorem statsOk_nil : StatsOk [] [] := by
  refine ⟨List.nodup_nil, fun nm => ?_⟩
  simp [List.find?, evTriggers]

theorem triggerSig_name (s : SigRec) (cid : String) (sc : ℚ) :
    (triggerSig s cid sc).name = s.name := rfl

theorem names_map_update (stats : List SigRec) (nm cid : String) (sc : ℚ) :
    (stats.map (fun s => if s.name == nm then triggerSig s cid sc else s)).map
        (fun s => s.name)
      = stats.map (fun s => s.name) := by
  rw [List.map_map]
  congr 1
  funext s
  by_cases h : s.name == nm <;> simp [Function.comp, h, triggerSig_name]

theorem find?_map_update (stats : List SigRec) (nm nm2 cid : String) (sc : ℚ) :
    (stats.map (fun s => if s.name == nm then triggerSig s cid sc else s)).find?
        (fun s => s.name == nm2)
      = (stats.find? (fun s => s.name == nm2)).map
          (fun s => if s.name == nm then triggerSig s cid sc else s) := by
  have hp : ((fun s : SigRec => s.name == nm2)
        ∘ fun s => if s.name == nm then triggerSig s cid sc else s)
      = fun s : SigRec => s.name == nm2 := by
    funext s
    by_cases h : s.name == nm <;> simp [Function.comp, h, triggerSig_name]
  rw [List.find?_map, hp]

/-- The cap arithmetic of the sample list: appending one more triggering
case id to the first-10 sample equals the first-10 sample of the extended
trigger list. -/
theorem take10_append (T : List String) (cid : String) :
    (if (T.take 10).length < 10 then T.take 10 ++ [cid] else T.take 10)
      = (T ++ [cid]).take 10 := by
  by_cases hT : T.length < 10
  · rw [List.take_of_length_le (le_of_lt hT),
      if_pos (by simpa using hT),
      List.take_of_length_le (by simp; omega)]
  · rw [List.take_append_of_le_length (by omega), if_neg]
    simp only [List.length_take]
    omega

/-- Inserting the fresh entry for a newly seen detector name preserves the
invariant (no iteration is consumed yet). -/
theorem statsOk_insertNew {evs : List Ev} {stats : List SigRec} (nm : String)
    (h : StatsOk evs stats) :
    StatsOk evs
      (if stats.any (fun s => s.name == nm) then stats else stats ++ [initSig nm]) := by
  by_cases hmem : stats.any (fun s => s.name == nm) = true
  · rwa [if_pos hmem]
  · rw [if_neg hmem]
    obtain ⟨hnd, hinv⟩ := h
    have hnot : ∀ s ∈ stats, (s.name == nm) = false := by
      intro s hs
      by_contra hc
      exact hmem (List.any_eq_true.mpr ⟨s, hs, by simpa using hc⟩)
    constructor
    · rw [List.map_append, List.nodup_append]
      refine ⟨hnd, by simp, ?_⟩
      intro x hx hx2
      simp only [List.map_cons, List.map_nil, List.mem_cons, List.not_mem_nil,
        or_false, initSig] at hx2
      obtain ⟨s, hs, hsx⟩ := List.mem_map.mp hx
      have := hnot s hs
      rw [hsx, hx2] at this
      simp at this
    · intro nm2
      rw [List.find?_append]
      cases hfind : stats.find? (fun s => s.name == nm2) with
      | some s =>
          have h0 := hinv nm2
          rw [hfind] at h0
          simpa [Option.or] using h0
      | none =>
          have h0 := hinv nm2
          rw [hfind] at h0
          by_cases he : nm = nm2
          · subst he
            simp only [Option.or, List.find?, initSig, beq_self_eq_true]
            simpa [initSig, h0] using ⟨rfl, rfl⟩
          · simp only [Option.or, List.find?, initSig]
            rw [show ((nm : String) == nm2) = false by simpa using he]
            exact h0

/-- Applying the trigger update for iteration e extends the invariant by
that iteration, provided the entry for e's detector exists. -/
theorem statsOk_trigger {evs : List Ev} {stats1 : List SigRec} {e : Ev} {sc : Option ℚ}
    (hdd : e.dd = DetectorData.dict sc) (hpos : 0 < sc.getD 0)
    (hmem : stats1.any (fun s => s.name == e.name) = true)
    (h : StatsOk evs stats1) :
    StatsOk (evs ++ [e])
      (stats1.map
        (fun s => if s.name == e.name then triggerSig s e.caseId (sc.getD 0) else s)) := by
  obtain ⟨hnd, hinv⟩ := h
  constructor
  · rw [names_map_update]; exact hnd
  · intro nm2
    rw [find?_map_update]
    by_cases hne : nm2 = e.name
    · have hbeq : (e.name == nm2) = true := by simp [hne]
      have hf : evTriggersFor e nm2 = true := by
        simp [evTriggersFor, evScore, hdd, hpos, hbeq]
      have htr : evTriggers (evs ++ [e]) nm2 = evTriggers evs nm2 ++ [e.caseId] := by
        rw [evTriggers_append, evTriggers_single_pos hf]
      have hsome : ∃ s0, stats1.find? (fun s => s.name == nm2) = Option.some s0 := by
        rw [← Option.isSome_iff_exists, List.find?_isSome]
        obtain ⟨s, hs, hp⟩ := List.any_eq_true.mp hmem
        refine ⟨s, hs, ?_⟩
        simpa [hne] using hp
      obtain ⟨s0, hfind⟩ := hsome
      have hps0 : s0.name = nm2 := by simpa using List.find?_some hfind
      have h0 := hinv nm2
      rw [hfind] at h0
      rw [hfind, htr]
      have hupd : (if s0.name == e.name then triggerSig s0 e.caseId (sc.getD 0) else s0)
          = triggerSig s0 e.caseId (sc.getD 0) := by
        rw [if_pos (by simp [hps0, hne])]
      rw [show (Option.some s0).map
            (fun s => if s.name == e.name then triggerSig s e.caseId (sc.getD 0) else s)
          = Option.some (if s0.name == e.name then triggerSig s0 e.caseId (sc.getD 0) else s0)
          from rfl, hupd]
      constructor
      · show (if s0.case_ids.length < 10 then s0.case_ids ++ [e.caseId] else s0.case_ids)
            = ((evTriggers evs nm2 ++ [e.caseId]).take 10)
        rw [h0.1, take10_append]
      · show s0.triggered_count + 1 = (evTriggers evs nm2 ++ [e.caseId]).length
        rw [h0.2, List.length_append, List.length_cons, List.length_nil]
    · have hbe : (e.name == nm2) = false := by
        rw [beq_eq_false_iff_ne]
        exact fun hh => hne hh.symm
      have hf : evTriggersFor e nm2 = false := by
        simp [evTriggersFor, hbe]
      have htr : evTriggers (evs ++ [e]) nm2 = evTriggers evs nm2 := by
        rw [evTriggers_append, evTriggers_single_neg hf, List.append_nil]
      have h0 := hinv nm2
      cases hfind : stats1.find? (fun s => s.name == nm2) with
      | none =>
          rw [hfind] at h0
          show evTriggers (evs ++ [e]) nm2 = []
          rw [htr]; exact h0
      | some s =>
          rw [hfind] at h0
          have hsname : s.name = nm2 := by simpa using List.find?_some hfind
          have hupd : (if s.name == e.name then triggerSig s e.caseId (sc.getD 0) else s)
              = s := by
            rw [if_neg]
            rw [hsname, beq_eq_false_iff_ne.mpr hne]
            exact Bool.false_ne_true
          show ((if s.name == e.name then triggerSig s e.caseId (sc.getD 0) else s).case_ids
              = (evTriggers (evs ++ [e]) nm2).take 10)
            ∧ (if s.name == e.name then triggerSig s e.caseId (sc.getD 0) else s).triggered_count
              = (evTriggers (evs ++ [e]) nm2).length
          rw [hupd, htr]
          exact h0

/-- One step of the detector loop preserves the invariant, consuming one
iteration. -/
theorem statsOk_step {evs : List Ev} {stats : List SigRec} (e : Ev)
    (h : StatsOk evs stats) : StatsOk (evs ++ [e]) (stepEv stats e) := by
  cases hdd : e.dd with
  | notDict =>
      have hstep : stepEv stats e = stats := by simp [stepEv, hdd]
      rw [hstep]
      obtain ⟨hnd, hinv⟩ := h
      refine ⟨hnd, fun nm => ?_⟩
      have hf : evTriggersFor e nm = false := by
        simp [evTriggersFor, evScore, hdd]
      have htr : evTriggers (evs ++ [e]) nm = evTriggers evs nm := by
        rw [evTriggers_append, evTriggers_single_neg hf, List.append_nil]
      rw [htr]
      exact hinv nm
  | dict sc =>
      by_cases hpos : 0 < sc.getD 0
      · have hstep : stepEv stats e
            = (if stats.any (fun s => s.name == e.name) then stats
               else stats ++ [initSig e.name]).map
                (fun s => if s.name == e.name then triggerSig s e.caseId (sc.getD 0) else s) := by
          simp [stepEv, hdd, hpos]
        rw [hstep]
        refine statsOk_trigger hdd hpos ?_ (statsOk_insertNew e.name h)
        by_cases hm : stats.any (fun s => s.name == e.name) = true
        · rwa [if_pos hm]
        · rw [if_neg hm, List.any_append]
          simp [initSig]
      · have hstep : stepEv stats e
            = (if stats.any (fun s => s.name == e.name) then stats
               else stats ++ [initSig e.name]) := by
          simp [stepEv, hdd, hpos]
        rw [hstep]
        obtain ⟨hnd, hinv⟩ := statsOk_insertNew e.name h
        refine ⟨hnd, fun nm => ?_⟩
        have hf : evTriggersFor e nm = false := by
          simp [evTriggersFor, evScore, hdd, hpos]
        have htr : evTriggers (evs ++ [e]) nm = evTriggers evs nm := by
          rw [evTriggers_append, evTriggers_single_neg hf, List.append_nil]
        rw [htr]
        exact hinv nm

theorem statsOk_foldl (new : List Ev) :
    ∀ (evs : List Ev) (stats : List SigRec), StatsOk evs stats →
      StatsOk (evs ++ new) (new.foldl stepEv stats) := by
  induction new with
  | nil => intro evs stats h; simpa using h
  | cons e t ih =>
      intro evs stats h
      rw [List.foldl_cons, show evs ++ e :: t = (evs ++ [e]) ++ t by simp]
      exact ih (evs ++ [e]) (stepEv stats e) (statsOk_step e h)

/-- The nested case/detector loops are the flat fold over all detector
iterations. -/
theorem foldl_processCase_eq (records : List CaseRecord) :
    ∀ stats : List SigRec,
      records.foldl processCase stats = (events records).foldl stepEv stats := by
  induction records with
  | nil => intro stats; simp [events]
  | cons c t ih =>
      intro stats
      rw [List.foldl_cons, ih,
        show events (c :: t) = caseEvents c ++ events t from by simp [events],
        List.foldl_append]
      rfl

theorem statsOk_signalStats (records : List CaseRecord) :
    StatsOk (events records) (signalStats records) := by
  have h := statsOk_foldl (events records) [] [] statsOk_nil
  unfold signalStats
  rw [foldl_processCase_eq]
  simpa using h

theorem find?_name_of_mem {stats : List SigRec} {s0 : SigRec}
    (hnd : (stats.map (fun s => s.name)).Nodup) (hm : s0 ∈ stats) :
    stats.find? (fun s => s.name == s0.name) = Option.some s0 := by
  induction stats with
  | nil => cases hm
  | cons a t ih =>
      rw [List.map_cons, List.nodup_cons] at hnd
      rcases List.mem_cons.mp hm with h1 | h1
      · subst h1
        simp [List.find?_cons]
      · have hmem : s0.name ∈ t.map (fun s => s.name) := List.mem_map.mpr ⟨s0, h1, rfl⟩
        have hane : (a.name == s0.name) = false := by
          rw [beq_eq_false_iff_ne]
          intro he
          exact hnd.1 (he ▸ hmem)
        rw [List.find?_cons, hane]
        exact ih hnd.2 h1

/-- C7: in the signal-breakdown output, every detector's sample list holds
at most 10 case ids, and is exactly the first 10 triggering case ids of
that detector in encounter order — so once the cap is reached no later case
id replaces an earlier one. -/
theorem claim_c7_sample_cap (records : List CaseRecord) (s : SigOut)
    (hs : s ∈ signalBreakdown records) :
    s.case_ids.length ≤ 10
    ∧ s.case_ids = (evTriggers (events records) s.name).take 10 := by
  have hs2 : s ∈ (signalStats records).map finalizeSig :=
    (List.mem_insertionSort _).mp hs
  obtain ⟨s0, hs0mem, hs0eq⟩ := List.mem_map.mp hs2
  obtain ⟨hnd, hinv⟩ := statsOk_signalStats records
  have hfind := find?_name_of_mem hnd hs0mem
  have h0 := hinv s0.name
  rw [hfind] at h0
  have hname : s.name = s0.name := by rw [← hs0eq]; rfl
  have hcis : s.case_ids = s0.case_ids := by rw [← hs0eq]; rfl
  constructor
  · rw [hcis, h0.1, List.length_take]
    omega
  · rw [hcis, hname, h0.1]

/-- Witness for claim_c7_sample_cap on the three-record example: the d1
entry samples exactly the two triggering case ids. -/
theorem claim_c7_witness :
    ({ name := "d1", triggered_count := 2, max_score := 5, avg_score := 5,
       case_ids := ["c1", "c2"] } : SigOut).case_ids.length ≤ 10
    ∧ ({ name := "d1", triggered_count := 2, max_score := 5, avg_score := 5,
         case_ids := ["c1", "c2"] } : SigOut).case_ids
        = (evTriggers
            (events
              [ { case_id := "c1", status := "analyzed", risk_score := Option.none,
                  signals := Option.some [("d1", DetectorData.dict (Option.some 5))] },
                { case_id := "c2", status := "analyzed", risk_score := Option.none,
                  signals := Option.some [("d1", DetectorData.dict (Option.some 5))] },
                { case_id := "c3", status := "analyzed", risk_score := Option.none,
                  signals := Option.some [("d1", DetectorData.dict (Option.some 0))] } ])
            "d1").take 10 :=
  claim_c7_sample_cap
    [ { case_id := "c1", status := "analyzed", risk_score := Option.none,
        signals := Option.some [("d1", DetectorData.dict (Option.some 5))] },
      { case_id := "c2", status := "analyzed", risk_score := Option.none,
        signals := Option.some [("d1", DetectorData.dict (Option.some 5))] },
      { case_id := "c3", status := "analyzed", risk_score := Option.none,
        signals := Option.some [("d1", DetectorData.dict (Option.some 0))] } ]
    { name := "d1", triggered_count := 2, max_score := 5, avg_score := 5,
      case_ids := ["c1", "c2"] }
    (by norm_num [signalBreakdown, signalStats, processCase, caseEvents, stepEv, initSig,
      triggerSig, finalizeSig, round1, pyRoundHalfEven, List.insertionSort])

/-- One step of the first-seen detector name accumulation: non-dict data is
skipped before the creation check; a dict-valued detector name is appended
when not seen before. -/
def seenStep (acc : List String) (e : Ev) : List String :=
  match e.dd with
  | DetectorData.notDict => acc
  | DetectorData.dict _ => if e.name ∈ acc then acc else acc ++ [e.name]

/-- The detector names in the order each was first seen while scanning the
iterations (mirroring Python dict key insertion order). -/
def firstSeenNames (evs : List Ev) : List String :=
  evs.foldl seenStep []

theorem names_stepEv (stats : List SigRec) (e : Ev) :
    (stepEv stats e).map (fun s => s.name)
      = seenStep (stats.map (fun s => s.name)) e := by
  have hany : (stats.any (fun s => s.name == e.name) = true)
      ↔ e.name ∈ stats.map (fun s => s.name) := by
    rw [List.any_eq_true]
    constructor
    · rintro ⟨s, hs, hp⟩
      exact List.mem_map.mpr ⟨s, hs, by simpa using hp⟩
    · rintro hm
      obtain ⟨s, hs, he⟩ := List.mem_map.mp hm
      exact ⟨s, hs, by simp [he]⟩
  cases hdd : e.dd with
  | notDict => simp [stepEv, seenStep, hdd]
  | dict sc =>
      by_cases hm : e.name ∈ stats.map (fun s => s.name)
      · have ha := hany.mpr hm
        by_cases hpos : 0 < sc.getD 0
        · simp only [stepEv, seenStep, hdd, hpos, if_true, ha]
          rw [names_map_update, if_pos hm]
        · simp only [stepEv, seenStep, hdd, hpos, if_false, ha, if_true]
          rw [if_pos hm]
      · have ha : stats.any (fun s => s.name == e.name) = false := by
          rw [← Bool.not_eq_true]
          exact fun hc => hm (hany.mp hc)
        by_cases hpos : 0 < sc.getD 0
        · simp only [stepEv, seenStep, hdd, hpos, if_true, ha, Bool.false_eq_true, if_false]
          rw [names_map_update, List.map_append, if_neg hm]
          rfl
        · simp only [stepEv, seenStep, hdd, hpos, if_false, ha, Bool.false_eq_true]
          rw [List.map_append, if_neg hm]
          rfl

theorem names_foldl_stepEv (evs : List Ev) :
    ∀ stats : List SigRec,
      ((evs.foldl stepEv stats).map (fun s => s.name))
        = evs.foldl seenStep (stats.map (fun s => s.name)) := by
  induction evs with
  | nil => intro stats; rfl
  | cons e t ih =>
      intro stats
      rw [List.foldl_cons, List.foldl_cons, ih, names_stepEv]

/-- The signal_stats entries sit in first-seen detector order. -/
theorem signalStats_names (records : List CaseRecord) :
    (signalStats records).map (fun s => s.name) = firstSeenNames (events records) := by
  unfold signalStats firstSeenNames
  rw [foldl_processCase_eq, names_foldl_stepEv]
  rfl

/-- C8: the signal-breakdown output is sorted by triggered_count descending
(adjacent and further pairs in non-increasing order); two entries with
equal counts that stand in pre-sort order (the order of the signal_stats
dict) keep that order in the output (stability of Python's sorted); and the
pre-sort entries stand in the order each detector was first seen while
scanning the records. -/
theorem claim_c8_sorted_stable (records : List CaseRecord) :
    List.Pairwise (fun a b : SigOut => b.triggered_count ≤ a.triggered_count)
        (signalBreakdown records)
    ∧ (∀ x y : SigOut, x.triggered_count = y.triggered_count →
        List.Sublist [x, y] ((signalStats records).map finalizeSig) →
        List.Sublist [x, y] (signalBreakdown records))
    ∧ (signalStats records).map (fun s => s.name) = firstSeenNames (events records) := by
  refine ⟨?_, ?_, signalStats_names records⟩
  · haveI : IsTotal SigOut (fun a b => b.triggered_count ≤ a.triggered_count) :=
      ⟨fun a b => le_total b.triggered_count a.triggered_count⟩
    haveI : IsTrans SigOut (fun a b => b.triggered_count ≤ a.triggered_count) :=
      ⟨fun a b c hab hbc => le_trans hbc hab⟩
    exact List.sorted_insertionSort _ _
  · intro x y hxy hsub
    exact List.pair_sublist_insertionSort (le_of_eq hxy.symm) hsub

/-- Witness for claim_c8_sorted_stable: one analyzed case triggering d1
(score 3) and d2 (score 4) gives two entries with equal counts; the output
is sorted, keeps the tied pair in first-seen order, and the stats names
equal the first-seen list. -/
theorem claim_c8_witness :
    List.Pairwise (fun a b : SigOut => b.triggered_count ≤ a.triggered_count)
        (signalBreakdown
          [ { case_id := "c1", status := "analyzed", risk_score := Option.none,
              signals := Option.some
                [("d1", DetectorData.dict (Option.some 3)),
                 ("d2", DetectorData.dict (Option.some 4))] } ])
    ∧ List.Sublist
        [ { name := "d1", triggered_count := 1, max_score := 3, avg_score := 3,
            case_ids := ["c1"] },
          { name := "d2", triggered_count := 1, max_score := 4, avg_score := 4,
            case_ids := ["c1"] } ]
        (signalBreakdown
          [ { case_id := "c1", status := "analyzed", risk_score := Option.none,
              signals := Option.some
                [("d1", DetectorData.dict (Option.some 3)),
                 ("d2", DetectorData.dict (Option.some 4))] } ])
    ∧ (signalStats
          [ { case_id := "c1", status := "analyzed", risk_score := Option.none,
              signals := Option.some
                [("d1", DetectorData.dict (Option.some 3)),
                 ("d2", DetectorData.dict (Option.some 4))] } ]).map (fun s => s.name)
        = firstSeenNames
            (events
              [ { case_id := "c1", status := "analyzed", risk_score := Option.none,
                  signals := Option.some
                    [("d1", DetectorData.dict (Option.some 3)),
                     ("d2", DetectorData.dict (Option.some 4))] } ]) :=
  ⟨(claim_c8_sorted_stable
      [ { case_id := "c1", status := "analyzed", risk_score := Option.none,
          signals := Option.some
            [("d1", DetectorData.dict (Option.some 3)),
             ("d2", DetectorData.dict (Option.some 4))] } ]).1,
   (claim_c8_sorted_stable
      [ { case_id := "c1", status := "analyzed", risk_score := Option.none,
          signals := Option.some
            [("d1", DetectorData.dict (Option.some 3)),
             ("d2", DetectorData.dict (Option.some 4))] } ]).2.1
     { name := "d1", triggered_count := 1, max_score := 3, avg_score := 3,
       case_ids := ["c1"] }
     { name := "d2", triggered_count := 1, max_score := 4, avg_score := 4,
       case_ids := ["c1"] }
     rfl
     (by
       have h : (signalStats
            [ { case_id := "c1", status := "analyzed", risk_score := Option.none,
                signals := Option.some
                  [("d1", DetectorData.dict (Option.some 3)),
                   ("d2", DetectorData.dict (Option.some 4))] } ]).map finalizeSig
          = [ { name := "d1", triggered_count := 1, max_score := 3, avg_score := 3,
                case_ids := ["c1"] },
              { name := "d2", triggered_count := 1, max_score := 4, avg_score := 4,
                case_ids := ["c1"] } ] := by
         have h12 : ("d1" : String) ≠ "d2" := by decide
         have h21 : ("d2" : String) ≠ "d1" := by decide
         norm_num [signalStats, processCase, caseEvents, stepEv, initSig,
           triggerSig, finalizeSig, round1, pyRoundHalfEven, h12, h21]
       rw [h]),
   (claim_c8_sorted_stable
      [ { case_id := "c1", status := "analyzed", risk_score := Option.none,
          signals := Option.some
            [("d1", DetectorData.dict (Option.some 3)),
             ("d2", DetectorData.dict (Option.some 4))] } ]).2.2⟩
